import Mathlib

/-!
Shallow embedding of the tender-app core (`src/app.py`): the refreshing
CSV cache (`get_data`), header normalization and fuzzy column resolution
(`normalize_headers`, `pick_col`), the facet listing route (`/filters`),
the search pipeline (`/search`: free-text scan, structured filters, date
range filters, premium redaction) and the supporting string/number/date
coercions (`_lc`, `_to_int`, `normalize_date`).

Modelling conventions:
* a pandas cell read with `dtype=str` is `Option String`; `none` is NaN;
* a row produced by `DataFrame.to_dict(orient="records")` is an ordered
  association list from column name to cell;
* `time.time()` values are `Int`;
* the blocking fetch primitive's outcome is an input (`Option Table`,
  `none` = the `pd.read_csv` call raised);
* Python `str.lower`/`str.strip` are modelled on ASCII characters, which
  covers every string the program manipulates here;
* `pandas.Series.str.contains` uses a regular-expression pattern; the
  model covers the fragment built from ordinary characters and the dot
  wildcard, and returns `none` for patterns using other metacharacters.
-/

namespace TenderApp

/-- A cell of the dataframe: `none` models NaN (a missing value in the
CSV), `some s` a string value, as read with `dtype=str`. -/
abbrev Field := Option String

/-- A row as produced by `DataFrame.to_dict(orient="records")`:
an ordered mapping from column name to cell value. -/
abbrev Row := List (String × Field)

/-- A dataframe: the column headers plus the rows keyed by them. -/
structure Table where
  headers : List String
  rows : List Row
  deriving DecidableEq

/-- Characters removed by Python's `str.strip()` (ASCII whitespace). -/
def isPyWhitespace (c : Char) : Bool :=
  c = ' ' || c = '\t' || c = '\n' || c = '\r' || c = '\x0b' || c = '\x0c'

/-- Python `str.strip()` on a character list. -/
def trimChars (cs : List Char) : List Char :=
  ((cs.dropWhile isPyWhitespace).reverse.dropWhile isPyWhitespace).reverse

/-- Python `str.strip()`. -/
def pyStrip (s : String) : String := ⟨trimChars s.data⟩

/-- Python `str.lower()` (ASCII case folding). -/
def pyLower (s : String) : String := ⟨s.data.map Char.toLower⟩

/-- `begWithB n h` holds when `n` is a prefix of `h`. -/
def begWithB : List Char → List Char → Bool
  | [], _ => true
  | _ :: _, [] => false
  | a :: as, b :: bs => a = b && begWithB as bs

/-- Python's substring test `needle in hay` on character lists. -/
def isSubB (needle : List Char) : List Char → Bool
  | [] => begWithB needle []
  | c :: cs => begWithB needle (c :: cs) || isSubB needle cs

/-- Python `dict.get(k)` on a row: `none` when the key is absent. -/
def rowGet (r : Row) (k : String) : Option Field :=
  (r.find? (fun p => p.1 == k)).map Prod.snd

/-- Python `str(row.get(k) or "")`: an absent key gives `""`, a NaN cell
(truthy in Python) gives `"nan"`, otherwise the string itself (an empty
string is falsy, giving `""` back). -/
def pyGetStr (r : Row) (k : String) : String :=
  match rowGet r k with
  | none => ""
  | some none => "nan"
  | some (some s) => s

/-- `str(cell)` after `row.astype(str)`: NaN prints as `"nan"`. -/
def fieldStr : Field → String
  | none => "nan"
  | some s => s

/-- Decimal digit test. -/
def isDigitChar (c : Char) : Bool := '0' ≤ c && c ≤ '9'

/-- Numeric value of a digit/underscore body, ignoring underscores. -/
def digitsVal (cs : List Char) : Nat :=
  (cs.filter isDigitChar).foldl (fun n c => 10 * n + (c.toNat - 48)) 0

/-- No two adjacent underscores. -/
def noDoubleUnderscore : List Char → Bool
  | [] => true
  | [_] => true
  | a :: b :: rest => !(a = '_' && b = '_') && noDoubleUnderscore (b :: rest)

/-- Validity of the digit body accepted by Python `int()`: non-empty,
starts and ends with a digit, only digits and single underscores. -/
def intBodyOk (cs : List Char) : Bool :=
  (match cs with | [] => false | c :: _ => isDigitChar c) &&
  (match cs.getLast? with | none => false | some c => isDigitChar c) &&
  cs.all (fun c => isDigitChar c || c = '_') &&
  noDoubleUnderscore cs

/-- Python `int(s)` for an already comma-free string, with the
`_to_int` fallback to `0` when `int` raises. -/
def pyIntOr0 (s : String) : Int :=
  let cs := trimChars s.data
  match cs with
  | '+' :: rest => if intBodyOk rest then (digitsVal rest : Int) else 0
  | '-' :: rest => if intBodyOk rest then -(digitsVal rest : Int) else 0
  | _ => if intBodyOk cs then (digitsVal cs : Int) else 0

/-- `_to_int(v)` from `app.py`: `int(str(v or "0").replace(",", "").strip())`
with `0` on failure.  The argument is the result of `row.get(k)`. -/
def toIntField (v : Option Field) : Int :=
  let s : String :=
    match v with
    | none => "0"
    | some none => "nan"
    | some (some str0) => if str0 = "" then "0" else str0
  pyIntOr0 ⟨s.data.filter (fun c => c ≠ ',')⟩

/-- `_to_int(r.get("Tender Value"))` as used by the value-range filters. -/
def tenderValue (r : Row) : Int := toIntField (rowGet r "Tender Value")

/-- A `datetime.date` value. -/
structure PyDate where
  y : Nat
  m : Nat
  d : Nat
  deriving DecidableEq

/-- `datetime.date` comparison `a <= b` (lexicographic on y, m, d). -/
def dateLE (a b : PyDate) : Bool :=
  a.y < b.y || (a.y = b.y && (a.m < b.m || (a.m = b.m && a.d ≤ b.d)))

/-- Gregorian leap-year rule used by `datetime`. -/
def isLeap (y : Nat) : Bool := (y % 4 = 0 && y % 100 ≠ 0) || y % 400 = 0

/-- Days in a month, as validated by the `datetime.date` constructor. -/
def daysInMonth (y m : Nat) : Nat :=
  if m = 2 then (if isLeap y then 29 else 28)
  else if m = 4 || m = 6 || m = 9 || m = 11 then 30
  else 31

/-- Split a character list on the literal `'-'` separator. -/
def splitDash : List Char → List (List Char)
  | [] => [[]]
  | c :: cs =>
    if c = '-' then [] :: splitDash cs
    else
      match splitDash cs with
      | [] => [[c]]
      | g :: gs => (c :: g) :: gs

/-- A non-empty all-digit group. -/
def allDigits (cs : List Char) : Bool := !cs.isEmpty && cs.all isDigitChar

/-- Build a validated `date(y, m, d)`, as `datetime.date` would. -/
def mkDate (y m d : Nat) : Option PyDate :=
  if 1 ≤ y && 1 ≤ m && m ≤ 12 && 1 ≤ d && d ≤ daysInMonth y m then
    some ⟨y, m, d⟩
  else none

/-- `datetime.strptime(s, "%d-%m-%Y")`: day and month of one or two
digits, a four-digit year, full-string match, calendar-validated. -/
def parseDMY (cs : List Char) : Option PyDate :=
  match splitDash cs with
  | [pd, pm, py] =>
    if allDigits pd && pd.length ≤ 2 && allDigits pm && pm.length ≤ 2 &&
        allDigits py && py.length = 4 then
      mkDate (digitsVal py) (digitsVal pm) (digitsVal pd)
    else none
  | _ => none

/-- `datetime.strptime(s, "%Y-%m-%d")`. -/
def parseYMD (cs : List Char) : Option PyDate :=
  match splitDash cs with
  | [py, pm, pd] =>
    if allDigits py && py.length = 4 && allDigits pm && pm.length ≤ 2 &&
        allDigits pd && pd.length ≤ 2 then
      mkDate (digitsVal py) (digitsVal pm) (digitsVal pd)
    else none
  | _ => none

/-- `normalize_date` from the `/search` route on a string value:
strip, then try `%d-%m-%Y`, then `%Y-%m-%d`; `None` when neither fits. -/
def normalizeDateStr (s : String) : Option PyDate :=
  let cs := trimChars s.data
  match parseDMY cs with
  | some d => some d
  | none => parseYMD cs

/-- `normalize_date(value)` including the leading falsy test: `None` and
`""` are falsy; a NaN cell makes `value.strip()` raise inside each format
attempt, which the loop swallows. -/
def normalizeDateBound (s : String) : Option PyDate :=
  if s = "" then none else normalizeDateStr s

/-- `normalize_date(r.get(k))` for a row cell. -/
def rowDate (r : Row) (k : String) : Option PyDate :=
  match rowGet r k with
  | none => none
  | some none => none
  | some (some s) => normalizeDateBound s

/-- `normalize_headers`: strip whitespace from every column name (pandas
renames the keys of every row along with the headers). -/
def normalizeHeaders (t : Table) : Table :=
  ⟨t.headers.map pyStrip, t.rows.map (fun r => r.map (fun p => (pyStrip p.1, p.2)))⟩

/-- The module-level cache state: `df_cache` and `last_fetched`. -/
structure CacheState where
  dfCache : Option Table
  lastFetched : Int
  deriving DecidableEq

/-- `CACHE_TIMEOUT = 120`. -/
def cacheTimeout : Int := 120

/-- The headers of the fallback dataframe built on fetch failure. -/
def canonicalColumns : List String :=
  ["Items", "Quantity Required", "State", "Department", "Category",
   "Tender Value", "Published Date", "Closing Date", "Status"]

/-- The "safe empty dataframe with expected headers". -/
def emptyCanonicalTable : Table := ⟨canonicalColumns, []⟩

/-- The outcome of one `get_data()` call: the returned table, the cache
state afterwards, and whether the fetch primitive was invoked. -/
structure GetDataResult where
  table : Table
  state : CacheState
  fetched : Bool
  deriving DecidableEq

/-- `get_data()` from `app.py`.  `fetchResult` is the outcome the fetch
primitive would produce if invoked (`none` = `pd.read_csv` raised);
`now` is `time.time()`. -/
def getData (fetchResult : Option Table) (now : Int) (s : CacheState) :
    GetDataResult :=
  let refresh : GetDataResult :=
    match fetchResult with
    | some df =>
      let df' := normalizeHeaders df
      ⟨df', ⟨some df', now⟩, true⟩
    | none => ⟨emptyCanonicalTable, ⟨some emptyCanonicalTable, now⟩, true⟩
  match s.dfCache with
  | none => refresh
  | some tbl =>
    if now - s.lastFetched > cacheTimeout then refresh else ⟨tbl, s, false⟩

/-- Python dict insertion: overwrite in place when the key exists,
append otherwise. -/
def dictInsert (d : List (String × String)) (k v : String) :
    List (String × String) :=
  if d.any (fun p => p.1 == k) then
    d.map (fun p => if p.1 == k then (k, v) else p)
  else d ++ [(k, v)]

/-- `s.strip().lower()`, the key form used throughout `pick_col`. -/
def headerKey (s : String) : String := pyLower (pyStrip s)

/-- The `lookup` dict of `pick_col`:
`{c.strip().lower(): c for c in df.columns}`. -/
def buildLookup (headers : List String) : List (String × String) :=
  headers.foldl (fun d c => dictInsert d (headerKey c) c) []

/-- Python `dict.get`-style lookup in the insertion-ordered dict. -/
def lookupGet (d : List (String × String)) (k : String) : Option String :=
  (d.find? (fun p => p.1 == k)).map Prod.snd

/-- The exact-match loop of `pick_col`: the first candidate whose
stripped lowercase form is a dict key wins. -/
def exactPhase (d : List (String × String)) : List String → Option String
  | [] => none
  | n :: ns =>
    match lookupGet d (headerKey n) with
    | some v => some v
    | none => exactPhase d ns

/-- The containment loop of `pick_col`: the first dict entry whose key
contains some candidate as a substring wins. -/
def containsPhase (d : List (String × String)) (cands : List String) :
    Option String :=
  d.findSome? (fun p =>
    if cands.any (fun n => isSubB (headerKey n).data p.1.data) then
      some p.2
    else none)

/-- `pick_col(df, candidates)` from `app.py`: `None` on an empty frame,
then exact case-insensitive match, then substring containment. -/
def pickCol (t : Table) (cands : List String) : Option String :=
  if t.rows.isEmpty then none
  else
    let d := buildLookup t.headers
    match exactPhase d cands with
    | some v => some v
    | none => containsPhase d cands

/-- Lexicographic `a <= b` on character lists (Python string order). -/
def charsLe : List Char → List Char → Bool
  | [], _ => true
  | _ :: _, [] => false
  | a :: as, b :: bs => a < b || (a = b && charsLe as bs)

/-- Python string comparison `a <= b`. -/
def strLe (a b : String) : Prop := charsLe a.data b.data = true

instance : DecidableRel strLe :=
  fun a b => inferInstanceAs (Decidable (charsLe a.data b.data = true))

/-- `sorted(series.dropna().unique().tolist())` on a column of cells:
drop NaN, deduplicate keeping first occurrences, sort. -/
def getUniqueVals (vals : List Field) : List String :=
  List.insertionSort strLe ((vals.filterMap id).dedup)

/-- The cells of column `c` of `t`, row by row. -/
def colValues (t : Table) (c : String) : List Field :=
  t.rows.map (fun r => (rowGet r c).getD none)

/-- The five facets listed by the `/filters` route. -/
inductive FacetName
  | ministry
  | department
  | category
  | state
  | status
  deriving DecidableEq

/-- The exact column name each facet reads. -/
def facetColumn : FacetName → String
  | .ministry => "Ministry"
  | .department => "Department"
  | .category => "Category"
  | .state => "State"
  | .status => "Status"

/-- The `/filters` route: strip the headers, then for each facet return
`get_unique(col)` — the sorted distinct non-NaN values of the column
with that exact name, or `[]` when the column is absent. -/
def filtersRoute (t : Table) (f : FacetName) : List String :=
  let t' := normalizeHeaders t
  let c := facetColumn f
  if t'.headers.contains c then getUniqueVals (colValues t' c) else []

/-- A regular-expression token of the fragment the model covers. -/
inductive RTok
  | dot
  | lit (c : Char)
  deriving DecidableEq

/-- The metacharacters of Python `re` (everything outside the modelled
literal-or-dot fragment). -/
def regexMeta : List Char :=
  ['.', '^', '$', '*', '+', '?', '\x7b', '\x7d', '[', ']', '\\', '|', '(', ')']

/-- Read a pattern made of ordinary characters and dots; `none` for a
pattern using any other metacharacter (outside the modelled fragment). -/
def parseToks : List Char → Option (List RTok)
  | [] => some []
  | c :: cs =>
    if c = '.' then (parseToks cs).map (fun ts => RTok.dot :: ts)
    else if regexMeta.contains c then none
    else (parseToks cs).map (fun ts => RTok.lit c :: ts)

/-- One token against one character; `.` matches anything but newline. -/
def tokMatch : RTok → Char → Bool
  | RTok.dot, c => c ≠ '\n'
  | RTok.lit a, c => a = c

/-- The token list matches a prefix of the character list. -/
def toksFront : List RTok → List Char → Bool
  | [], _ => true
  | _ :: _, [] => false
  | t :: ts, c :: cs => tokMatch t c && toksFront ts cs

/-- `re.search` for the fragment: the tokens match at some position. -/
def toksContains (ts : List RTok) : List Char → Bool
  | [] => toksFront ts []
  | c :: cs => toksFront ts (c :: cs) || toksContains ts cs

/-- `row.astype(str).str.lower().str.contains(query).any()`. -/
def rowFreeMatch (ts : List RTok) (r : Row) : Bool :=
  r.any (fun p => toksContains ts (pyLower (fieldStr p.2)).data)

/-- The free-text step of `/search`: lowercase the query; an empty query
keeps every row; otherwise keep the rows some cell of which matches the
query as a pattern.  `none` when the pattern uses regular-expression
features outside the modelled fragment. -/
def freeTextStep (q : String) (rows : List Row) : Option (List Row) :=
  let ql := pyLower q
  if ql.data = [] then some rows
  else
    match parseToks ql.data with
    | some ts => some (rows.filter (rowFreeMatch ts))
    | none => none

/-- `match(r.get(col), key)` from `/search`:
`key in str(val or "").lower()` (the key arrives already lowercased). -/
def fieldTest (col key : String) (r : Row) : Bool :=
  isSubB key.data (pyLower (pyGetStr r col)).data

/-- One `if <param>: results = [r for r in results if match(...)]` step. -/
def fieldFilter (col key : String) (rows : List Row) : List Row :=
  rows.filter (fieldTest col key)

/-- The row test of the start-date filter once the bound parsed. -/
def dateTestStart (fd : PyDate) (r : Row) : Bool :=
  match rowDate r "Start Date" with
  | some d => dateLE fd d
  | none => false

/-- The row test of the end-date filter once the bound parsed. -/
def dateTestEnd (fe : PyDate) (r : Row) : Bool :=
  match rowDate r "End Date" with
  | some d => dateLE d fe
  | none => false

/-- The start-date filter of `/search`.  When the bound itself fails to
parse, the comprehension compares a parsed date against `None`: at the
first row whose "Start Date" parses, a `TypeError` escapes to the
enclosing `except: pass`, leaving `results` unassigned; when no row
parses, the comprehension completes and excludes every row. -/
def dateFilterStart (bound : String) (rows : List Row) : List Row :=
  match normalizeDateBound bound with
  | some fd => rows.filter (dateTestStart fd)
  | none =>
    if rows.any (fun r => (rowDate r "Start Date").isSome) then rows else []

/-- The end-date filter of `/search`, with the same exception shape. -/
def dateFilterEnd (bound : String) (rows : List Row) : List Row :=
  match normalizeDateBound bound with
  | some fe => rows.filter (dateTestEnd fe)
  | none =>
    if rows.any (fun r => (rowDate r "End Date").isSome) then rows else []

/-- The structured filter predicates of `/search` (string keys arrive
already lowercased by the route). -/
inductive Pred
  | ministry (key : String)
  | department (key : String)
  | category (key : String)
  | state (key : String)
  | status (key : String)
  | minVal (n : Int)
  | maxVal (n : Int)
  | startDate (bound : String)
  | endDate (bound : String)
  deriving DecidableEq

/-- Apply one structured predicate, exactly as the route does. -/
def applyPred : Pred → List Row → List Row
  | .ministry k, rows => fieldFilter "Ministry" k rows
  | .department k, rows => fieldFilter "Department" k rows
  | .category k, rows => fieldFilter "Category" k rows
  | .state k, rows => fieldFilter "State" k rows
  | .status k, rows => fieldFilter "Status" k rows
  | .minVal n, rows => rows.filter (fun r => n ≤ tenderValue r)
  | .maxVal n, rows => rows.filter (fun r => tenderValue r ≤ n)
  | .startDate b, rows => dateFilterStart b rows
  | .endDate b, rows => dateFilterEnd b rows

/-- A predicate acts as a pointwise row filter; only a date predicate
with an unparseable bound does not. -/
def predPointwise : Pred → Bool
  | .startDate b => (normalizeDateBound b).isSome
  | .endDate b => (normalizeDateBound b).isSome
  | _ => true

/-- The pointwise row test of a predicate (meaningful whenever
`predPointwise` holds). -/
def predFn : Pred → Row → Bool
  | .ministry k => fieldTest "Ministry" k
  | .department k => fieldTest "Department" k
  | .category k => fieldTest "Category" k
  | .state k => fieldTest "State" k
  | .status k => fieldTest "Status" k
  | .minVal n => fun r => n ≤ tenderValue r
  | .maxVal n => fun r => tenderValue r ≤ n
  | .startDate b => fun r =>
      match normalizeDateBound b with
      | some fd => dateTestStart fd r
      | none => false
  | .endDate b => fun r =>
      match normalizeDateBound b with
      | some fe => dateTestEnd fe r
      | none => false

/-- The query-string parameters of one `/search` request, as the route
reads them (`request.args.get`). -/
structure SearchArgs where
  q : String
  ministry : String
  department : String
  category : String
  state : String
  status : String
  minValue : Option Int
  maxValue : Option Int
  date : Option String
  closing : Option String
  deriving DecidableEq

/-- The structured-filter section of `/search`: each parameter, when
present and non-empty, narrows the row list in turn. -/
def applyFilters (a : SearchArgs) (rows0 : List Row) : List Row :=
  let r1 := if (pyLower a.ministry).data ≠ [] then
    fieldFilter "Ministry" (pyLower a.ministry) rows0 else rows0
  let r2 := if (pyLower a.department).data ≠ [] then
    fieldFilter "Department" (pyLower a.department) r1 else r1
  let r3 := if (pyLower a.category).data ≠ [] then
    fieldFilter "Category" (pyLower a.category) r2 else r2
  let r4 := if (pyLower a.state).data ≠ [] then
    fieldFilter "State" (pyLower a.state) r3 else r3
  let r5 := if (pyLower a.status).data ≠ [] then
    fieldFilter "Status" (pyLower a.status) r4 else r4
  let r6 := match a.minValue with
    | some n => r5.filter (fun r => n ≤ tenderValue r)
    | none => r5
  let r7 := match a.maxValue with
    | some n => r6.filter (fun r => tenderValue r ≤ n)
    | none => r6
  let r8 := match a.date with
    | some s => if s ≠ "" then dateFilterStart s r7 else r7
    | none => r7
  match a.closing with
  | some s => if s ≠ "" then dateFilterEnd s r8 else r8
  | none => r8

/-- The constant upsell notice of the locked row. -/
def upsellNote : String := "🔒 Upgrade to premium to see full tender details"

/-- `r.get(k, "N/A")`: the present cell (even NaN), else the default. -/
def lockGet (r : Row) (k : String) : Field :=
  match rowGet r k with
  | none => some "N/A"
  | some v => v

/-- The locked row built for callers without an active subscription. -/
def lockRow (r : Row) : Row :=
  [("Items", lockGet r "Items"),
   ("Quantity Required", lockGet r "Quantity Required"),
   ("Note", some upsellNote)]

/-- The access tier of a caller. -/
inductive AccessTier
  | anonymous
  | free
  | premium
  deriving DecidableEq

/-- Whether the session/subscription lookup finds an active
subscription: only a premium caller has one (an anonymous caller has no
`user_id`, a free caller has no active subscription row). -/
def tierActiveSubscription : AccessTier → Bool
  | .premium => true
  | _ => false

/-- The Redactor: the full row for premium, the locked row otherwise. -/
def project (tier : AccessTier) (r : Row) : Row :=
  if tierActiveSubscription tier then r else lockRow r

/-- The matching part of `/search` (before redaction): free-text scan,
then the structured filters. -/
def searchMatched (t : Table) (a : SearchArgs) : Option (List Row) :=
  (freeTextStep a.q t.rows).map (applyFilters a)

/-- The whole `/search` pipeline on a given table: free-text scan,
structured filters, then the premium restriction replacing every row by
the locked row when the caller has no active subscription. -/
def searchRoute (subActive : Bool) (t : Table) (a : SearchArgs) :
    Option (List Row) :=
  match freeTextStep a.q t.rows with
  | none => none
  | some rows =>
    let results := applyFilters a rows
    some (if subActive then results else results.map lockRow)

/-! ### Order lemmas for the Python string comparison -/

theorem charsLe_trans : ∀ a b c : List Char,
    charsLe a b = true → charsLe b c = true → charsLe a c = true
  | [], _, _, _, _ => rfl
  | _ :: _, [], _, h1, _ => by simp [charsLe] at h1
  | _ :: _, _ :: _, [], _, h2 => by simp [charsLe] at h2
  | x :: xs, y :: ys, z :: zs, h1, h2 => by
    simp only [charsLe, Bool.or_eq_true, Bool.and_eq_true, decide_eq_true_eq] at h1 h2 ⊢
    rcases h1 with h1 | ⟨rfl, h1⟩
    · rcases h2 with h2 | ⟨rfl, h2⟩
      · exact Or.inl (lt_trans h1 h2)
      · exact Or.inl h1
    · rcases h2 with h2 | ⟨rfl, h2⟩
      · exact Or.inl h2
      · exact Or.inr ⟨rfl, charsLe_trans xs ys zs h1 h2⟩

theorem charsLe_total : ∀ a b : List Char,
    charsLe a b = true ∨ charsLe b a = true
  | [], _ => Or.inl rfl
  | _ :: _, [] => Or.inr rfl
  | x :: xs, y :: ys => by
    simp only [charsLe, Bool.or_eq_true, Bool.and_eq_true, decide_eq_true_eq]
    rcases lt_trichotomy x y with h | rfl | h
    · exact Or.inl (Or.inl h)
    · rcases charsLe_total xs ys with h | h
      · exact Or.inl (Or.inr ⟨rfl, h⟩)
      · exact Or.inr (Or.inr ⟨rfl, h⟩)
    · exact Or.inr (Or.inl h)

instance : IsTotal String strLe := ⟨fun a b => charsLe_total a.data b.data⟩

instance : IsTrans String strLe :=
  ⟨fun a b c => charsLe_trans a.data b.data c.data⟩

/-! ### Cache lemmas -/

/-- A stale (or cold) cache whose fetch fails publishes the empty
canonical table. -/
theorem getData_fail_refresh (now : Int) (s : CacheState)
    (h : s.dfCache = none ∨ now - s.lastFetched > cacheTimeout) :
    getData none now s =
      ⟨emptyCanonicalTable, ⟨some emptyCanonicalTable, now⟩, true⟩ := by
  rcases hc : s.dfCache with _ | tbl
  · simp [getData, hc]
  · rcases h with h | h
    · rw [hc] at h; cases h
    · simp [getData, hc, h]

/-- C1 (amended): on a refresh attempt (cold cache, or staleness beyond
the window) whose fetch fails, `get_data` publishes and returns the
zero-row table whose columns are exactly the canonical column set —
regardless of whether a prior table exists; the prior table is replaced,
not kept. -/
theorem c1_fetch_failure_canonical_empty (now : Int) (s : CacheState)
    (h : s.dfCache = none ∨ now - s.lastFetched > cacheTimeout) :
    getData none now s =
      ⟨emptyCanonicalTable, ⟨some emptyCanonicalTable, now⟩, true⟩ ∧
    emptyCanonicalTable.rows = [] ∧
    emptyCanonicalTable.headers = canonicalColumns :=
  ⟨getData_fail_refresh now s h, rfl, rfl⟩

/-- Witness for C1 (amended) at a cold cache and time 5. -/
theorem c1_witness :
    ((⟨none, 0⟩ : CacheState).dfCache = none ∨
      (5 : Int) - (0 : Int) > cacheTimeout) ∧
    getData none 5 ⟨none, 0⟩ =
      ⟨emptyCanonicalTable, ⟨some emptyCanonicalTable, 5⟩, true⟩ :=
  ⟨Or.inl rfl, (c1_fetch_failure_canonical_empty 5 ⟨none, 0⟩ (Or.inl rfl)).1⟩

/-- C1 counterexample: with a prior table cached and the cache stale, a
failing fetch does NOT return the prior table unchanged — the cache is
overwritten with the empty canonical table. -/
theorem c1_counterexample :
    (getData none 1000
        ⟨some ⟨["Items"], [[("Items", some "old")]]⟩, 0⟩).table ≠
      (⟨["Items"], [[("Items", some "old")]]⟩ : Table) ∧
    (getData none 1000
        ⟨some ⟨["Items"], [[("Items", some "old")]]⟩, 0⟩).table =
      emptyCanonicalTable := by
  exact ⟨by decide, by decide⟩

/-- C4: a fresh cache is served unchanged with no fetch; and a failed
refresh still moves `last_fetched` to `now`, so within the next
freshness window no further fetch is attempted. -/
theorem c4_freshness_and_backoff :
    (∀ (fetchResult : Option Table) (now : Int) (s : CacheState) (tbl : Table),
        s.dfCache = some tbl → now - s.lastFetched < cacheTimeout →
        getData fetchResult now s = ⟨tbl, s, false⟩) ∧
    (∀ (now : Int) (s : CacheState),
        (s.dfCache = none ∨ now - s.lastFetched > cacheTimeout) →
        (getData none now s).state.lastFetched = now ∧
        ∀ (f2 : Option Table) (t : Int), t < cacheTimeout →
          (getData f2 (now + t) (getData none now s).state).fetched = false) := by
  constructor
  · intro f now s tbl hc hlt
    simp [getData, hc, lt_asymm hlt]
  · intro now s h
    rw [getData_fail_refresh now s h]
    refine ⟨rfl, ?_⟩
    intro f2 t ht
    simp [getData, lt_asymm ht]

/-- Witness for C4 at a concrete fresh state and a concrete failed
refresh followed by a call inside the next window. -/
theorem c4_witness :
    getData none 50 ⟨some ⟨["A"], [[("A", some "x")]]⟩, 0⟩ =
      ⟨⟨["A"], [[("A", some "x")]]⟩, ⟨some ⟨["A"], [[("A", some "x")]]⟩, 0⟩, false⟩ ∧
    ((getData none 1000 ⟨none, 0⟩).state.lastFetched = 1000 ∧
      ∀ (f2 : Option Table) (t : Int), t < cacheTimeout →
        (getData f2 (1000 + t) (getData none 1000 ⟨none, 0⟩).state).fetched = false) :=
  ⟨c4_freshness_and_backoff.1 none 50 ⟨some ⟨["A"], [[("A", some "x")]]⟩, 0⟩
      ⟨["A"], [[("A", some "x")]]⟩ rfl (by decide),
    c4_freshness_and_backoff.2 1000 ⟨none, 0⟩ (Or.inl rfl)⟩

/-! ### Redactor -/

/-- C5: the Redactor is the identity for premium; anonymous and free are
redacted identically; a redacted row has exactly the fields Items,
Quantity Required and Note, the first two taken from the source row when
present (even as NaN) and defaulting to "N/A" when absent, the Note
being the constant upsell string. -/
theorem c5_redactor :
    (∀ r : Row, project AccessTier.premium r = r) ∧
    (∀ r : Row, project AccessTier.anonymous r = project AccessTier.free r) ∧
    (∀ (t : AccessTier) (r : Row), tierActiveSubscription t = false →
      ((project t r).map Prod.fst = ["Items", "Quantity Required", "Note"] ∧
       rowGet (project t r) "Note" = some (some upsellNote) ∧
       (rowGet r "Items" = none →
         rowGet (project t r) "Items" = some (some "N/A")) ∧
       (∀ v, rowGet r "Items" = some v →
         rowGet (project t r) "Items" = some v) ∧
       (rowGet r "Quantity Required" = none →
         rowGet (project t r) "Quantity Required" = some (some "N/A")) ∧
       (∀ v, rowGet r "Quantity Required" = some v →
         rowGet (project t r) "Quantity Required" = some v))) := by
  refine ⟨fun r => rfl, fun r => rfl, ?_⟩
  intro t r ht
  have hp : project t r = lockRow r := by simp [project, ht]
  rw [hp]
  refine ⟨rfl, rfl, ?_, ?_, ?_, ?_⟩
  · intro h
    show some (lockGet r "Items") = some (some "N/A")
    simp [lockGet, h]
  · intro v h
    show some (lockGet r "Items") = some v
    simp [lockGet, h]
  · intro h
    show some (lockGet r "Quantity Required") = some (some "N/A")
    simp [lockGet, h]
  · intro v h
    show some (lockGet r "Quantity Required") = some v
    simp [lockGet, h]

/-- Witness for C5 at the free tier and the empty row. -/
theorem c5_witness :
    tierActiveSubscription AccessTier.free = false ∧
    (project AccessTier.free ([] : Row)).map Prod.fst =
      ["Items", "Quantity Required", "Note"] :=
  ⟨rfl, (c5_redactor.2.2 AccessTier.free [] rfl).1⟩

/-- C6: the `/search` pipeline factors through a tier-independent
matching stage; the access tier influences only the per-row projection
applied to the matched rows, never which rows match. -/
theorem c6_redaction_after_filtering :
    ∀ (tier : AccessTier) (t : Table) (a : SearchArgs),
      searchRoute (tierActiveSubscription tier) t a =
        (searchMatched t a).map (fun rs => rs.map (project tier)) := by
  intro tier t a
  cases hft : freeTextStep a.q t.rows with
  | none => simp [searchRoute, searchMatched, hft]
  | some rows =>
    have hm : List.map (project tier) (applyFilters a rows) =
        if tierActiveSubscription tier then applyFilters a rows
        else (applyFilters a rows).map lockRow := by
      cases htr : tierActiveSubscription tier with
      | true =>
        have hpr : project tier = fun r => r := by
          funext r
          simp [project, htr]
        simp [hpr]
      | false =>
        have hpr : project tier = lockRow := by
          funext r
          simp [project, htr]
        simp [hpr]
    simp [searchRoute, searchMatched, hft, hm]

/-! ### Structured predicates -/

/-- A pointwise predicate application is a `filter` by its row test. -/
theorem applyPred_eq_filter (p : Pred) (rows : List Row)
    (hp : predPointwise p = true) :
    applyPred p rows = rows.filter (predFn p) := by
  cases p with
  | ministry k => rfl
  | department k => rfl
  | category k => rfl
  | state k => rfl
  | status k => rfl
  | minVal n => rfl
  | maxVal n => rfl
  | startDate b =>
    rcases ho : normalizeDateBound b with _ | fd
    · simp [predPointwise, ho] at hp
    · simp only [applyPred, dateFilterStart, predFn, ho]
  | endDate b =>
    rcases ho : normalizeDateBound b with _ | fe
    · simp [predPointwise, ho] at hp
    · simp only [applyPred, dateFilterEnd, predFn, ho]

/-- C7 (amended): applying two structured predicates commutes whenever
both act as pointwise row filters — that is, always, except for a
date-range predicate whose bound string fails to parse. -/
theorem c7_pred_commutative (p1 p2 : Pred) (rows : List Row)
    (h1 : predPointwise p1 = true) (h2 : predPointwise p2 = true) :
    applyPred p1 (applyPred p2 rows) = applyPred p2 (applyPred p1 rows) := by
  rw [applyPred_eq_filter p2 rows h2, applyPred_eq_filter p1 rows h1,
    applyPred_eq_filter p1 _ h1, applyPred_eq_filter p2 _ h2]
  exact List.filter_comm _ _ _

/-- Witness for C7 (amended) at two concrete pointwise predicates. -/
theorem c7_witness :
    predPointwise (Pred.ministry "a") = true ∧
    predPointwise (Pred.state "b") = true ∧
    applyPred (Pred.ministry "a")
        (applyPred (Pred.state "b") [[("Ministry", some "abc")]]) =
      applyPred (Pred.state "b")
        (applyPred (Pred.ministry "a") [[("Ministry", some "abc")]]) :=
  ⟨rfl, rfl, c7_pred_commutative _ _ _ rfl rfl⟩

/-- C7 counterexample: a start-date predicate with an unparseable bound
is not a pointwise filter (it is skipped when some remaining row's
"Start Date" parses, and clears the list when none does), so predicate
application does not commute. -/
theorem c7_counterexample :
    applyPred (Pred.state "kerala")
        (applyPred (Pred.startDate "garbage")
          [[("Start Date", some "01-01-2024"), ("State", some "Goa")],
           [("State", some "Kerala")]]) ≠
      applyPred (Pred.startDate "garbage")
        (applyPred (Pred.state "kerala")
          [[("Start Date", some "01-01-2024"), ("State", some "Goa")],
           [("State", some "Kerala")]]) := by
  decide

/-- C9 (amended): the date-range filters read the row fields named
exactly "Start Date" and "End Date"; whenever the filter's own bound
parses, a row whose value under that field is absent or unparseable in
both accepted formats is excluded; and the row tests depend only on
that exact field's value. -/
theorem c9_date_filter_fields :
    (∀ (b : String) (rows : List Row) (r : Row),
        (normalizeDateBound b).isSome = true →
        rowDate r "Start Date" = none → r ∉ dateFilterStart b rows) ∧
    (∀ (b : String) (rows : List Row) (r : Row),
        (normalizeDateBound b).isSome = true →
        rowDate r "End Date" = none → r ∉ dateFilterEnd b rows) ∧
    (∀ (fd : PyDate) (r r' : Row),
        rowGet r "Start Date" = rowGet r' "Start Date" →
        dateTestStart fd r = dateTestStart fd r') ∧
    (∀ (fe : PyDate) (r r' : Row),
        rowGet r "End Date" = rowGet r' "End Date" →
        dateTestEnd fe r = dateTestEnd fe r') := by
  refine ⟨?_, ?_, ?_, ?_⟩
  · intro b rows r hb hr hmem
    obtain ⟨fd, hfd⟩ := Option.isSome_iff_exists.mp hb
    rw [show dateFilterStart b rows = rows.filter (dateTestStart fd) by
      simp only [dateFilterStart, hfd]] at hmem
    have := (List.mem_filter.mp hmem).2
    simp [dateTestStart, hr] at this
  · intro b rows r hb hr hmem
    obtain ⟨fe, hfe⟩ := Option.isSome_iff_exists.mp hb
    rw [show dateFilterEnd b rows = rows.filter (dateTestEnd fe) by
      simp only [dateFilterEnd, hfe]] at hmem
    have := (List.mem_filter.mp hmem).2
    simp [dateTestEnd, hr] at this
  · intro fd r r' hg
    simp only [dateTestStart, rowDate, hg]
  · intro fe r r' hg
    simp only [dateTestEnd, rowDate, hg]

/-- Witness for C9 (amended) at a parsed bound and a row without a
"Start Date" field. -/
theorem c9_witness :
    (normalizeDateBound "02-01-2024").isSome = true ∧
    rowDate [("A", some "x")] "Start Date" = none ∧
    [("A", some "x")] ∉ dateFilterStart "02-01-2024" [[("A", some "x")]] :=
  ⟨by decide, by decide,
    c9_date_filter_fields.1 "02-01-2024" [[("A", some "x")]] [("A", some "x")]
      (by decide) (by decide)⟩

/-- C9 counterexample: with the active bound "garbage" (unparseable),
the start-date filter keeps a row whose "Start Date" field is absent,
because a parseable date in another row makes the comparison raise and
the whole filter is skipped. -/
theorem c9_counterexample :
    dateFilterStart "garbage"
        [[("Start Date", some "01-01-2024")], [("State", some "x")]] =
      [[("Start Date", some "01-01-2024")], [("State", some "x")]] ∧
    rowDate [("State", some "x")] "Start Date" = none ∧
    [("State", some "x")] ∈ dateFilterStart "garbage"
        [[("Start Date", some "01-01-2024")], [("State", some "x")]] := by
  exact ⟨by decide, by decide, by decide⟩

/-! ### Free-text search -/

theorem parseToks_lit : ∀ cs : List Char,
    (∀ c ∈ cs, regexMeta.contains c = false) →
    parseToks cs = some (cs.map RTok.lit)
  | [], _ => rfl
  | c :: cs, h => by
    have hc : regexMeta.contains c = false := h c (by simp)
    have hdot : ¬ (c = '.') := fun hcd => by
      rw [hcd] at hc
      exact absurd hc (by decide)
    have ih := parseToks_lit cs (fun x hx => h x (by simp [hx]))
    have hcm : c ∉ regexMeta := by simpa using hc
    simp [parseToks, hdot, hcm, ih]

theorem toksFront_lit : ∀ ns cs : List Char,
    toksFront (ns.map RTok.lit) cs = begWithB ns cs
  | [], _ => rfl
  | _ :: _, [] => rfl
  | n :: ns, c :: cs => by
    simp only [List.map_cons, toksFront, begWithB, tokMatch,
      toksFront_lit ns cs]

theorem toksContains_lit : ∀ ns cs : List Char,
    toksContains (ns.map RTok.lit) cs = isSubB ns cs
  | ns, [] => by simp only [toksContains, isSubB, toksFront_lit]
  | ns, c :: cs => by
    simp only [toksContains, isSubB, toksFront_lit,
      toksContains_lit ns cs]

/-- C3 (amended): the free-text step keeps every row for an empty term
(and the whole matching stage with empty term and no parameters returns
all rows); for a non-empty term whose lowercased form uses no
regular-expression metacharacter, it keeps exactly the rows some
field's lowercased string value of which contains the lowercased term
as a substring.  (For terms with metacharacters the code treats the
term as a regular-expression pattern instead.) -/
theorem c3_free_text :
    (∀ rows : List Row, freeTextStep "" rows = some rows) ∧
    (∀ t : Table,
      searchMatched t ⟨"", "", "", "", "", "", none, none, none, none⟩ =
        some t.rows) ∧
    (∀ (q : String) (rows : List Row), q ≠ "" →
      (∀ c ∈ (pyLower q).data, regexMeta.contains c = false) →
      freeTextStep q rows = some (rows.filter (fun r =>
        r.any (fun p =>
          isSubB (pyLower q).data (pyLower (fieldStr p.2)).data)))) := by
  refine ⟨fun rows => rfl, fun t => rfl, ?_⟩
  intro q rows hq hord
  have hne : (pyLower q).data ≠ [] := by
    intro hd
    apply hq
    cases q with
    | mk d =>
      have hdq : d.map Char.toLower = [] := hd
      have hnil : d = [] := List.map_eq_nil_iff.mp hdq
      rw [hnil]
  have hp := parseToks_lit (pyLower q).data hord
  have hfn : rowFreeMatch ((pyLower q).data.map RTok.lit) = fun r =>
      r.any (fun p =>
        isSubB (pyLower q).data (pyLower (fieldStr p.2)).data) := by
    funext r
    simp only [rowFreeMatch, toksContains_lit]
  simp only [freeTextStep, if_neg hne, hp, hfn]

/-- Witness for C3 (amended) at the concrete term "ab". -/
theorem c3_witness :
    ("ab" : String) ≠ "" ∧
    freeTextStep "ab" [[("A", some "xABy")], [("B", some "z")]] =
      some ([[("A", some "xABy")], [("B", some "z")]].filter (fun r =>
        r.any (fun p =>
          isSubB (pyLower "ab").data (pyLower (fieldStr p.2)).data))) :=
  ⟨by decide,
    c3_free_text.2.2 "ab" [[("A", some "xABy")], [("B", some "z")]]
      (by decide) (by decide)⟩

/-- Modelled from the spec's words, for comparison only: free-text
retention by plain lowercased substring containment. -/
def specFreeTextStep (q : String) (rows : List Row) : List Row :=
  if q = "" then rows
  else rows.filter (fun r =>
    r.any (fun p => isSubB (pyLower q).data (pyLower (fieldStr p.2)).data))

/-- C3 counterexample: the term "." is not a substring of "xyz", yet the
code retains the row, because pandas `str.contains` reads the term as a
regular expression and the dot matches any character. -/
theorem c3_counterexample :
    freeTextStep "." [[("A", some "xyz")]] = some [[("A", some "xyz")]] ∧
    specFreeTextStep "." [[("A", some "xyz")]] = [] := by
  exact ⟨by decide, by decide⟩

/-! ### Facet listing -/

/-- C2 (amended): for every table and every one of the five facet
names, the `/filters` route returns the sorted duplicate-free list of
the raw non-NaN values of the column whose exact (whitespace-stripped)
name is the facet's canonical header — with no alias resolution, no
value trimming and no exclusion of the placeholder dash or of empty
strings; a missing column yields an empty list, and on an empty table
every facet name yields an empty list. -/
theorem c2_facets (t : Table) (f : FacetName) :
    (∀ v : String, v ∈ filtersRoute t f ↔
      ((normalizeHeaders t).headers.contains (facetColumn f) = true ∧
        some v ∈ colValues (normalizeHeaders t) (facetColumn f))) ∧
    List.Sorted strLe (filtersRoute t f) ∧
    (filtersRoute t f).Nodup ∧
    (t.rows = [] → filtersRoute t f = []) := by
  cases hcont : (normalizeHeaders t).headers.contains (facetColumn f) with
  | false =>
    have hmem : facetColumn f ∉ (normalizeHeaders t).headers := by
      simpa using hcont
    have hrw : filtersRoute t f = [] := by
      simp [filtersRoute, hmem]
    rw [hrw]
    refine ⟨?_, List.sorted_nil, List.nodup_nil, fun _ => rfl⟩
    intro v
    simp [hcont]
  | true =>
    have hmem : facetColumn f ∈ (normalizeHeaders t).headers := by
      simpa using hcont
    have hrw : filtersRoute t f =
        getUniqueVals (colValues (normalizeHeaders t) (facetColumn f)) := by
      simp [filtersRoute, hmem]
    rw [hrw]
    refine ⟨?_, ?_, ?_, ?_⟩
    · intro v
      unfold getUniqueVals
      rw [(List.perm_insertionSort strLe _).mem_iff, List.mem_dedup]
      simp [List.mem_filterMap, hcont]
    · exact List.sorted_insertionSort strLe _
    · exact ((List.perm_insertionSort strLe _).nodup_iff).mpr
        (List.nodup_dedup _)
    · intro hrows
      have hcv : colValues (normalizeHeaders t) (facetColumn f) = [] := by
        simp [colValues, normalizeHeaders, hrows]
      rw [hcv]
      rfl

/-- Witness for C2 (amended): the empty table yields an empty facet. -/
theorem c2_witness :
    filtersRoute ⟨["Ministry"], []⟩ FacetName.ministry = [] :=
  (c2_facets ⟨["Ministry"], []⟩ FacetName.ministry).2.2.2 rfl

/-- Modelled from the spec's words, for comparison only: a facet's
values resolved through `pick_col`, trimmed, with empty strings and the
placeholder dash excluded, deduplicated and sorted. -/
def specFacetValues (t : Table) (f : FacetName) : List String :=
  match pickCol t [facetColumn f] with
  | none => []
  | some c =>
    List.insertionSort strLe
      (((((colValues t c).filterMap id).map pyStrip).filter
        (fun v => v ≠ "" && v ≠ "-")).dedup)

/-- C2 counterexample: a column holding the placeholder dash — the
route returns the dash as a facet value, where the claim requires it to
be excluded. -/
theorem c2_counterexample :
    filtersRoute ⟨["Ministry"], [[("Ministry", some "-")]]⟩
        FacetName.ministry = ["-"] ∧
    specFacetValues ⟨["Ministry"], [[("Ministry", some "-")]]⟩
        FacetName.ministry = [] := by
  exact ⟨by decide, by decide⟩

/-! ### Column resolution (`pick_col`) -/

/-- Inserting a fresh key into the dict appends it. -/
theorem dictInsert_fresh (d : List (String × String)) (k v : String)
    (h : ∀ p ∈ d, p.1 ≠ k) : dictInsert d k v = d ++ [(k, v)] := by
  have hany : d.any (fun p => p.1 == k) = false := by
    rw [List.any_eq_false]
    intro p hp
    simpa using h p hp
  simp [dictInsert, hany]

/-- Folding dict insertions of pairwise-fresh keys appends them all. -/
theorem buildLookup_aux : ∀ (hs : List String) (acc : List (String × String)),
    (∀ h ∈ hs, ∀ p ∈ acc, p.1 ≠ headerKey h) →
    (hs.map headerKey).Nodup →
    List.foldl (fun d c => dictInsert d (headerKey c) c) acc hs =
      acc ++ hs.map (fun h => (headerKey h, h))
  | [], acc, _, _ => by simp
  | h :: hs, acc, hfresh, hnd => by
    have hpair : (∀ x ∈ hs, ¬ headerKey x = headerKey h) ∧
        (hs.map headerKey).Nodup := by simpa using hnd
    rw [List.foldl_cons,
      dictInsert_fresh acc (headerKey h) h (hfresh h (by simp))]
    rw [buildLookup_aux hs (acc ++ [(headerKey h, h)]) ?_ hpair.2]
    · simp
    · intro h' hh' p hp
      rcases List.mem_append.mp hp with hp | hp
      · exact hfresh h' (by simp [hh']) p hp
      · have hpv : p = (headerKey h, h) := by simpa using hp
        rw [hpv]
        intro hkk
        exact hpair.1 h' hh' hkk.symm

/-- With pairwise-distinct header keys, the `pick_col` dict is just the
key-value listing of the headers in order. -/
theorem buildLookup_distinct (headers : List String)
    (hd : (headers.map headerKey).Nodup) :
    buildLookup headers = headers.map (fun h => (headerKey h, h)) := by
  have := buildLookup_aux headers [] (by simp) hd
  simpa [buildLookup] using this

/-- Dict lookup over a key-value listing is `find?` on the keys. -/
theorem lookupGet_map : ∀ (l : List String) (g : String → String) (k : String),
    lookupGet (l.map (fun h => (g h, h))) k = l.find? (fun h => g h == k)
  | [], _, _ => rfl
  | h :: l, g, k => by
    simp only [List.map_cons, lookupGet, List.find?]
    cases hgk : g h == k with
    | true => rfl
    | false => simpa [lookupGet] using lookupGet_map l g k

/-- The exact-match loop returns the dict value of the first candidate
whose key is present. -/
theorem exactPhase_eq (d : List (String × String)) : ∀ cands : List String,
    exactPhase d cands =
      (cands.find? (fun a => (lookupGet d (headerKey a)).isSome)).bind
        (fun a => lookupGet d (headerKey a))
  | [] => rfl
  | n :: ns => by
    simp only [exactPhase, List.find?]
    cases hl : lookupGet d (headerKey n) with
    | some v => simp [hl]
    | none => simp [hl, exactPhase_eq d ns]

/-- The containment loop over a key-value listing is `find?` on the
headers. -/
theorem containsPhase_map :
    ∀ (l : List String) (g : String → String) (cands : List String),
    containsPhase (l.map (fun h => (g h, h))) cands =
      l.find? (fun h => cands.any (fun n => isSubB (headerKey n).data (g h).data))
  | [], _, _ => rfl
  | h :: l, g, cands => by
    simp only [List.map_cons, containsPhase, List.findSome?, List.find?]
    cases hc : cands.any (fun n => isSubB (headerKey n).data (g h).data) with
    | true => simp [hc]
    | false => simpa [hc, containsPhase] using containsPhase_map l g cands

/-- `find?` produces a value exactly when `any` holds. -/
theorem isSome_find? : ∀ (l : List α) (p : α → Bool),
    (l.find? p).isSome = l.any p
  | [], _ => rfl
  | a :: l, p => by
    cases hp : p a <;> simp [List.find?, hp, isSome_find? l p]

/-- What `find?` returns satisfies the predicate. -/
theorem find?_pred : ∀ (l : List α) (p : α → Bool) (a : α),
    l.find? p = some a → p a = true
  | [], _, _, h => by cases h
  | x :: l, p, a, h => by
    cases hp : p x with
    | true =>
      rw [List.find?, hp] at h
      cases h
      exact hp
    | false =>
      rw [List.find?, hp] at h
      exact find?_pred l p a h

/-- `find?` only depends on the pointwise behaviour of the predicate. -/
theorem find?_ext : ∀ (l : List α) (p q : α → Bool),
    (∀ a ∈ l, p a = q a) → l.find? p = l.find? q
  | [], _, _, _ => rfl
  | a :: l, p, q, h => by
    have ha := h a (by simp)
    cases hp : p a with
    | true => simp [List.find?, hp, ha ▸ hp]
    | false =>
      have hq : q a = false := ha ▸ hp
      simp [List.find?, hp, hq]
      exact find?_ext l p q (fun x hx => h x (by simp [hx]))

/-- C8: `pick_col` returns `None` on an empty frame; otherwise (for
headers with pairwise-distinct stripped-lowercased forms) it returns
the header matching the first candidate whose stripped-lowercased form
equals some header's, and only when no candidate matches exactly, the
first header that contains some candidate as a substring, `None` when
neither exists.  In particular the spec's concrete example resolves to
"Buyer Name" through the exact phase. -/
theorem c8_pick_col :
    (∀ (t : Table) (cands : List String), t.rows = [] →
      pickCol t cands = none) ∧
    (∀ (t : Table) (cands : List String), t.rows ≠ [] →
      (t.headers.map headerKey).Nodup →
      pickCol t cands =
        match cands.find? (fun a =>
            t.headers.any (fun h => headerKey h == headerKey a)) with
        | some a =>
          t.headers.find? (fun h => headerKey h == headerKey a)
        | none =>
          t.headers.find? (fun h => cands.any (fun n =>
            isSubB (headerKey n).data (headerKey h).data))) ∧
    pickCol ⟨["Buyer Name", "Category", "UT"], [[("Buyer Name", some "x")]]⟩
        ["Department", "Buyer Name"] = some "Buyer Name" := by
  refine ⟨?_, ?_, by decide⟩
  · intro t cands h
    simp [pickCol, h]
  · intro t cands hrow hdist
    have hne : ¬ (t.rows.isEmpty = true) := by
      simpa [List.isEmpty_iff] using hrow
    have hL1 : buildLookup t.headers =
        t.headers.map (fun h => (headerKey h, h)) :=
      buildLookup_distinct t.headers hdist
    have hexact : exactPhase (buildLookup t.headers) cands =
        (cands.find? (fun a =>
            t.headers.any (fun h => headerKey h == headerKey a))).bind
          (fun a => t.headers.find? (fun h => headerKey h == headerKey a)) := by
      rw [exactPhase_eq, hL1]
      have hpred : ∀ a ∈ cands,
          (lookupGet (t.headers.map (fun h => (headerKey h, h)))
            (headerKey a)).isSome =
          t.headers.any (fun h => headerKey h == headerKey a) := by
        intro a _
        rw [lookupGet_map, isSome_find?]
      rw [find?_ext cands _ _ hpred]
      cases cands.find? (fun a =>
          t.headers.any (fun h => headerKey h == headerKey a)) with
      | none => rfl
      | some a => simp [lookupGet_map]
    have hpick : pickCol t cands =
        match exactPhase (buildLookup t.headers) cands with
        | some v => some v
        | none => containsPhase (buildLookup t.headers) cands := by
      simp [pickCol, hne]
    rw [hpick, hexact]
    cases hf : cands.find? (fun a =>
        t.headers.any (fun h => headerKey h == headerKey a)) with
    | some a =>
      have hpa : t.headers.any (fun h => headerKey h == headerKey a) = true :=
        find?_pred cands _ a hf
      have hsome :
          (t.headers.find? (fun h => headerKey h == headerKey a)).isSome = true := by
        rw [isSome_find?]
        exact hpa
      rcases hfh : t.headers.find? (fun h => headerKey h == headerKey a) with _ | h0
      · rw [hfh] at hsome
        cases hsome
      · simp [hfh]
    | none =>
      simp only [Option.none_bind]
      rw [hL1, containsPhase_map]

/-- Witness for C8 at the empty frame and at the spec's example. -/
theorem c8_witness :
    pickCol ⟨["A"], []⟩ ["x"] = none ∧
    pickCol ⟨["Buyer Name", "Category", "UT"], [[("Buyer Name", some "x")]]⟩
        ["Department", "Buyer Name"] =
      match ["Department", "Buyer Name"].find? (fun a =>
          ["Buyer Name", "Category", "UT"].any
            (fun h => headerKey h == headerKey a)) with
      | some a =>
        ["Buyer Name", "Category", "UT"].find?
          (fun h => headerKey h == headerKey a)
      | none =>
        ["Buyer Name", "Category", "UT"].find? (fun h =>
          ["Department", "Buyer Name"].any (fun n =>
            isSubB (headerKey n).data (headerKey h).data)) :=
  ⟨c8_pick_col.1 ⟨["A"], []⟩ ["x"] rfl,
    c8_pick_col.2.1 ⟨["Buyer Name", "Category", "UT"],
      [[("Buyer Name", some "x")]]⟩ ["Department", "Buyer Name"]
      (by decide) (by decide)⟩

end TenderApp
